import Mathlib

set_option maxRecDepth 10000

/-!
# Verification of the KrakenSDR receiver client (`krakenSDR_receiver.py`)

A shallow embedding of the receiver module `ReceiverRTLSDR` from
`src/krakensdr_doa/_receiver/krakenSDR_receiver.py`, together with theorems
settling the specification claims about it.

Conventions:
* Python byte strings are modelled as `List Nat`, each element a byte value.
* Machine integers are `Nat`/`Int` with explicit range conditions where the
  Python `struct.pack` calls would raise on out-of-range values.
* Socket/thread side effects are modelled by explicit outcome parameters and
  by returning the list of frames/events a call emits.
-/

namespace Kraken

/-- ASCII bytes of a string, modelling Python `str.encode()`. -/
def strBytes (s : String) : List Nat :=
  s.toList.map Char.toNat

/-- Little-endian encoding of `x` into 8 bytes, modelling `pack("Q", x)` for
`0 ≤ x < 2^64` (outside that range `pack` raises `struct.error`). -/
def packQ (x : Nat) : List Nat :=
  (List.range 8).map fun i => x / 256 ^ i % 256

/-- Little-endian encoding of `x` into 4 bytes, modelling `pack("I", x)` for
`0 ≤ x < 2^32`. -/
def packI (x : Nat) : List Nat :=
  (List.range 4).map fun i => x / 256 ^ i % 256

/-- CPython (64-bit) `sys.getsizeof` of a `bytes` object of length `n`:
the object header is 33 bytes, plus one byte per character.  The source's
`set_if_agc` uses this - the in-memory object size, not the byte length -
to compute its zero padding. -/
def getsizeofBytes (n : Nat) : Nat :=
  33 + n

/-- `ctr_iface_init`: `msg_bytes = "INIT".encode() + bytearray(124)`. -/
def initMsgBytes : List Nat :=
  strBytes "INIT" ++ List.replicate 124 0

/-- `eth_close`: `exit_message_bytes = "EXIT".encode() + bytearray(124)`. -/
def exitMessageBytes : List Nat :=
  strBytes "EXIT" ++ List.replicate 124 0

/-- `set_center_freq`: `msg_bytes = "FREQ".encode() + pack("Q", int(center_freq)) + bytearray(116)`.
`Option.none` models the `struct.error` raised when the frequency does not
fit an unsigned 64-bit integer. -/
def freqMsgBytes (center_freq : Nat) : Option (List Nat) :=
  if center_freq < 2 ^ 64 then
    Option.some (strBytes "FREQ" ++ packQ center_freq ++ List.replicate 116 0)
  else
    Option.none

/-- `set_if_gain` frame assembly for channel count `M`:
`gain_list = [int(gain*10)] * M`, `gain_bytes = pack("I"*M, *gain_list)`,
`msg_bytes = "GAIN".encode() + gain_bytes + bytearray(128 - (M+1)*4)`.
`Option.none` models the exceptions Python raises during assembly:
`struct.error` when `gain*10` is not an unsigned 32-bit value, and
`ValueError` from `bytearray` of a negative count when `(M+1)*4 > 128`. -/
def gainMsgBytes (gain : Int) (M : Nat) : Option (List Nat) :=
  if 0 ≤ gain * 10 ∧ gain * 10 < 2 ^ 32 ∧ (M + 1) * 4 ≤ 128 then
    Option.some (strBytes "GAIN" ++ (List.replicate M (packI (gain * 10).toNat)).flatten ++
      List.replicate (128 - (M + 1) * 4) 0)
  else
    Option.none

/-- `set_if_agc`: `cmd = "AGC ".encode()`;
`msg_bytes = cmd + bytearray(128 - sys.getsizeof(cmd))`.  Note the padding is
computed from the object size of the 4-byte `bytes` object (37 on CPython
64-bit), not from its length. -/
def agcMsgBytes : List Nat :=
  strBytes "AGC " ++ List.replicate (128 - getsizeofBytes 4) 0

theorem strBytes_length (s : String) : (strBytes s).length = s.length := by
  simp [strBytes]

theorem initMsgBytes_length : initMsgBytes.length = 128 := by decide
theorem exitMessageBytes_length : exitMessageBytes.length = 128 := by decide

theorem packQ_length (x : Nat) : (packQ x).length = 8 := by
  simp [packQ]

theorem packI_length (x : Nat) : (packI x).length = 4 := by
  simp [packI]

theorem flatten_replicate_length (M : Nat) (l : List Nat) :
    ((List.replicate M l).flatten).length = M * l.length := by
  induction M with
  | zero => simp
  | succ k ih => simp [List.replicate_succ, ih, Nat.succ_mul]; ring

theorem freqMsgBytes_length (f : Nat) (hf : f < 2 ^ 64) :
    ∃ m, freqMsgBytes f = Option.some m ∧ m.length = 128 := by
  unfold freqMsgBytes
  rw [if_pos hf]
  refine ⟨_, rfl, ?_⟩
  have h4 : (strBytes "FREQ").length = 4 := by decide
  simp [List.length_append, h4, packQ_length]

theorem gainMsgBytes_length (g : Int) (M : Nat) (m : List Nat)
    (hm : gainMsgBytes g M = Option.some m) : m.length = 128 := by
  unfold gainMsgBytes at hm
  split at hm
  · rename_i h
    cases hm
    have h4 : (strBytes "GAIN").length = 4 := by decide
    have hlen : ((List.replicate M (packI (g * 10).toNat)).flatten).length = M * 4 := by
      rw [flatten_replicate_length, packI_length]
    simp [List.length_append, h4, hlen, List.length_replicate]
    omega
  · cases hm

/-- The AGC command frame is 95 bytes long, not 128: the padding is
`128 - sys.getsizeof(b"AGC ") = 128 - 37 = 91`, so the frame is
`4 + 91 = 95` bytes. -/
theorem agcMsgBytes_length : agcMsgBytes.length = 95 := by decide

/-- Data interface selected at construction: `"eth"` or `"shmem"`. -/
inductive Iface
  | eth
  | shmem
deriving DecidableEq

/-- Events the receiver puts on `data_que` for the UI. -/
inductive Event
  | conn_ok
  | disconn_ok
  | config_ok
deriving DecidableEq

/-- Modelled from the spec: the `variables` module is not under `src/`.
`AUTO_GAIN_VALUE` is the distinguished sentinel gain value that requests
automatic gain control instead of a fixed gain; the code only compares
against it, so its exact numeric value is irrelevant to the claims. -/
def AUTO_GAIN_VALUE : Int := -128

/-- The mutable state of `ReceiverRTLSDR` relevant to the claims.  Socket
objects are modelled by numeric identities: `sock_ctr` is the next unused
identity, and `socket.socket()` re-instantiation assigns fresh identities. -/
structure RxState where
  data_interface : Iface
  receiver_connection_status : Bool
  daq_center_freq : Nat
  daq_rx_gain : Int
  daq_agc : Bool
  M : Nat
  socket_inst : Nat
  ctr_iface_socket : Nat
  sock_ctr : Nat
deriving DecidableEq

/-- `set_center_freq`: under an established connection, stores
`int(center_freq)` into `daq_center_freq` and hands the `FREQ` frame to the
communication thread.  The second component is the frame handed over
(`Option.none` when nothing is sent: either no connection, or frame assembly
raised). -/
def set_center_freq (s : RxState) (center_freq : Nat) : RxState × Option (List Nat) :=
  if s.receiver_connection_status then
    ({s with daq_center_freq := center_freq}, freqMsgBytes center_freq)
  else
    (s, Option.none)

/-- `set_if_agc`: under an established connection, stores `AUTO_GAIN_VALUE`
into `daq_rx_gain`, sets `daq_agc`, and hands the `AGC ` frame to the
communication thread. -/
def set_if_agc (s : RxState) : RxState × Option (List Nat) :=
  if s.receiver_connection_status then
    ({s with daq_rx_gain := AUTO_GAIN_VALUE, daq_agc := true}, Option.some agcMsgBytes)
  else
    (s, Option.none)

/-- `set_if_gain`: delegates to `set_if_agc` when the gain equals
`AUTO_GAIN_VALUE`; otherwise, under an established connection, stores the
gain, clears `daq_agc` and hands the `GAIN` frame (one 32-bit word per
channel, `M` words) to the communication thread.  There is no check that
`M > 0`. -/
def set_if_gain (s : RxState) (gain : Int) : RxState × Option (List Nat) :=
  if gain = AUTO_GAIN_VALUE then
    set_if_agc s
  else if s.receiver_connection_status then
    ({s with daq_rx_gain := gain, daq_agc := false}, gainMsgBytes gain s.M)
  else
    (s, Option.none)

/-- `ctr_iface_init`: under an established connection, hands the `INIT`
frame to the communication thread. -/
def ctr_iface_init (s : RxState) : RxState × Option (List Nat) :=
  if s.receiver_connection_status then
    (s, Option.some initMsgBytes)
  else
    (s, Option.none)

/-- `ctr_iface_communication`, acknowledgement part: decodes the first four
reply bytes; on `"FNSD"` enqueues a `config-ok` event, otherwise only logs.
It never modifies the cached DAQ configuration. -/
def ctr_iface_communication (s : RxState) (reply : List Nat) : RxState × List Event :=
  if reply.take 4 = strBytes "FNSD" then
    (s, [Event.config_ok])
  else
    (s, [])

/-- Which socket operations raise during `eth_close`.  An operation that the
control flow never reaches cannot raise. -/
structure CloseOutcome where
  sendQ_fails : Bool
  closeData_fails : Bool
  sendExit_fails : Bool
  closeCtrl_fails : Bool

/-- `eth_close`: result is (new state, events enqueued, return value).
The `try` block covers the socket teardown, the
`receiver_connection_status = False` assignment and the `disconn-ok`
enqueue; an exception anywhere inside jumps to the `except` handler, which
logs and returns `-1` without reaching either. -/
def eth_close (s : RxState) (o : CloseOutcome) : RxState × List Event × Int :=
  if s.receiver_connection_status then
    if s.data_interface = Iface.eth ∧ (o.sendQ_fails ∨ o.closeData_fails) then
      (s, [], -1)
    else
      let s1 := if s.data_interface = Iface.eth then
          {s with socket_inst := s.sock_ctr, sock_ctr := s.sock_ctr + 1}
        else s
      if o.sendExit_fails ∨ o.closeCtrl_fails then
        (s1, [], -1)
      else
        let s2 := {s1 with ctr_iface_socket := s1.sock_ctr, sock_ctr := s1.sock_ctr + 1,
                           receiver_connection_status := false}
        (s2, [Event.disconn_ok], 0)
  else
    ({s with receiver_connection_status := false}, [Event.disconn_ok], 0)

/-- Which socket operations raise during `eth_connect`.  Failures of frame
assembly in the replayed configuration commands are not free parameters:
they are computed from the state (`freqMsgBytes`/`gainMsgBytes` returning
`Option.none`), and failures of `_thread.start_new_thread` are caught inside
the setters and never propagate to `eth_connect`. -/
structure ConnectOutcome where
  dataConnect_fails : Bool
  sendStreaming_fails : Bool
  recvFrame_fails : Bool
  ctrlConnect_fails : Bool

/-- The `except` handler of `eth_connect`: clears the connection flag and
re-instantiates both sockets with fresh objects. -/
def rollbackSockets (s : RxState) : RxState :=
  {s with receiver_connection_status := false,
          socket_inst := s.sock_ctr,
          ctr_iface_socket := s.sock_ctr + 1,
          sock_ctr := s.sock_ctr + 2}

/-- `eth_connect`: result is (new state, events enqueued, control frames
handed to communication threads, return value; `Option.some (-1)` on the
except path, `Option.none` for Python's implicit `None`).  `firstHdrChs` is
the `active_ant_chs` field decoded by the first `receive_iq_frame` in eth
mode. -/
def eth_connect (s : RxState) (o : ConnectOutcome) (firstHdrChs : Nat) :
    RxState × List Event × List (List Nat) × Option Int :=
  if s.receiver_connection_status then
    (s, [Event.conn_ok], [], Option.none)
  else if s.data_interface = Iface.eth ∧
      (o.dataConnect_fails ∨ o.sendStreaming_fails ∨ o.recvFrame_fails) then
    (rollbackSockets s, [], [], Option.some (-1))
  else
    let s1 := if s.data_interface = Iface.eth then {s with M := firstHdrChs} else s
    if o.ctrlConnect_fails then
      (rollbackSockets s1, [], [], Option.some (-1))
    else
      let s2 := {s1 with receiver_connection_status := true}
      let freqRes := set_center_freq s2 s2.daq_center_freq
      match freqRes.2 with
      | Option.none => (rollbackSockets freqRes.1, [], [initMsgBytes], Option.some (-1))
      | Option.some freqF =>
        let gainRes := set_if_gain freqRes.1 freqRes.1.daq_rx_gain
        match gainRes.2 with
        | Option.none =>
          (rollbackSockets gainRes.1, [], [initMsgBytes, freqF], Option.some (-1))
        | Option.some gainF =>
          (gainRes.1, [Event.conn_ok], [initMsgBytes, freqF, gainF], Option.none)

/-- C1: Every command frame sent on the control socket is exactly 128 bytes.
REFUTED on the code: `INIT`, `FREQ`, `GAIN` (for representable arguments) and
`EXIT` frames are 128 bytes, but the `AGC ` frame built by `set_if_agc` is 95
bytes long, because its padding is computed with `sys.getsizeof` (CPython
object size, 37 for a 4-byte `bytes`) instead of the byte length 4.  This
theorem evaluates the code's frame builders: the four correct opcodes give
128 bytes while the AGC frame gives 95. -/
theorem agc_frame_is_95_bytes_not_128 :
    agcMsgBytes.length = 95 ∧ agcMsgBytes.length ≠ 128 ∧
      initMsgBytes.length = 128 ∧ exitMessageBytes.length = 128 := by
  refine ⟨by decide, by decide, by decide, by decide⟩

theorem set_center_freq_connected (s : RxState) (f : Nat)
    (h : s.receiver_connection_status = true) :
    set_center_freq s f = ({s with daq_center_freq := f}, freqMsgBytes f) := by
  simp [set_center_freq, h]

theorem set_if_gain_not_auto (s : RxState) (g : Int) (hg : g ≠ AUTO_GAIN_VALUE)
    (h : s.receiver_connection_status = true) :
    set_if_gain s g = ({s with daq_rx_gain := g, daq_agc := false}, gainMsgBytes g s.M) := by
  simp [set_if_gain, hg, h]

theorem set_if_gain_auto (s : RxState) (h : s.receiver_connection_status = true) :
    set_if_gain s AUTO_GAIN_VALUE =
      ({s with daq_rx_gain := AUTO_GAIN_VALUE, daq_agc := true}, Option.some agcMsgBytes) := by
  simp [set_if_gain, set_if_agc, h]

/-- C2 counterexample: with the connection flag set and `M = 0` (shared-memory
mode before any frame established the channel count), `set_if_gain 10` does
send bytes on the control socket: a 128-byte `GAIN` frame containing zero
per-channel gain words, contradicting "fails with NotReady and no bytes
sent". -/
theorem set_if_gain_M0_sends_bytes :
    (set_if_gain ⟨Iface.shmem, true, 100, 0, false, 0, 0, 1, 2⟩ 10).2 =
      Option.some (strBytes "GAIN" ++ List.replicate 124 0) := by
  decide

/-- C2 (amended): `set_if_gain` performs no channel-count validation.  Called
with the connection flag set, `M = 0` and a representable non-AGC gain, it
hands a 128-byte `GAIN` frame with zero per-channel gain words (opcode plus
124 zero bytes) to the communication thread, and still caches the gain. -/
theorem set_if_gain_M0_amended (s : RxState) (g : Int)
    (hconn : s.receiver_connection_status = true) (hM : s.M = 0)
    (hauto : g ≠ AUTO_GAIN_VALUE) (h0 : 0 ≤ g * 10) (h32 : g * 10 < 2 ^ 32) :
    (set_if_gain s g).2 = Option.some (strBytes "GAIN" ++ List.replicate 124 0) ∧
      (set_if_gain s g).1.daq_rx_gain = g ∧ (set_if_gain s g).1.daq_agc = false := by
  have hframe : gainMsgBytes g s.M = Option.some (strBytes "GAIN" ++ List.replicate 124 0) := by
    unfold gainMsgBytes
    rw [hM, if_pos ⟨h0, h32, by omega⟩]
    simp
  rw [set_if_gain_not_auto s g hauto hconn]
  simp [hframe]

theorem set_if_gain_M0_amended_witness :
    (set_if_gain ⟨Iface.shmem, true, 100, 0, false, 0, 0, 1, 2⟩ 10).2 =
        Option.some (strBytes "GAIN" ++ List.replicate 124 0) ∧
      (set_if_gain ⟨Iface.shmem, true, 100, 0, false, 0, 0, 1, 2⟩ 10).1.daq_rx_gain = 10 ∧
      (set_if_gain ⟨Iface.shmem, true, 100, 0, false, 0, 0, 1, 2⟩ 10).1.daq_agc = false :=
  set_if_gain_M0_amended ⟨Iface.shmem, true, 100, 0, false, 0, 0, 1, 2⟩ 10
    rfl rfl (by decide) (by decide) (by decide)

/-- C3 counterexample: from a connected eth-mode state, if the very first
teardown operation (`sendall("q")`) raises, `eth_close` returns `-1` with the
connection flag still `true` and no `disconn-ok` event enqueued - the client
does not reach Disconnected. -/
theorem eth_close_error_keeps_connected_flag :
    (eth_close ⟨Iface.eth, true, 100, 0, false, 5, 0, 1, 2⟩
        ⟨true, false, false, false⟩).1.receiver_connection_status = true ∧
      (eth_close ⟨Iface.eth, true, 100, 0, false, 5, 0, 1, 2⟩
        ⟨true, false, false, false⟩).2.1 = [] ∧
      (eth_close ⟨Iface.eth, true, 100, 0, false, 5, 0, 1, 2⟩
        ⟨true, false, false, false⟩).2.2 = -1 := by
  decide

/-- C3 (amended): `eth_close` either completes the teardown - returning `0`,
clearing the connection flag and enqueueing `disconn-ok` - or a socket
operation raises, in which case the exception is swallowed (logged, return
`-1`) but the connection flag keeps its previous value (which was `true`,
since socket operations only run when connected) and no `disconn-ok` event is
enqueued.  The transition to Disconnected is therefore not guaranteed under
I/O errors. -/
theorem eth_close_amended (s : RxState) (o : CloseOutcome) :
    ((eth_close s o).2.2 = 0 ∧
        (eth_close s o).1.receiver_connection_status = false ∧
        (eth_close s o).2.1 = [Event.disconn_ok]) ∨
      ((eth_close s o).2.2 = -1 ∧ (eth_close s o).2.1 = [] ∧
        (eth_close s o).1.receiver_connection_status = s.receiver_connection_status ∧
        s.receiver_connection_status = true) := by
  unfold eth_close
  by_cases hc : s.receiver_connection_status = true
  · rw [if_pos hc]
    by_cases h1 : s.data_interface = Iface.eth ∧ (o.sendQ_fails ∨ o.closeData_fails)
    · rw [if_pos h1]
      right
      exact ⟨rfl, rfl, rfl, hc⟩
    · rw [if_neg h1]
      by_cases h2 : o.sendExit_fails ∨ o.closeCtrl_fails
      · rw [if_pos h2]
        right
        refine ⟨rfl, rfl, ?_, hc⟩
        by_cases he : s.data_interface = Iface.eth <;> simp [he, hc]
      · rw [if_neg h2]
        left
        exact ⟨rfl, rfl, rfl⟩
  · rw [if_neg hc]
    left
    exact ⟨rfl, rfl, rfl⟩

/-- C10 counterexample: `set_if_gain` called with `AUTO_GAIN_VALUE` while
connected sets `daq_agc` to `true` (it delegates to `set_if_agc`), not to
`false` as the claim states for every gain value. -/
theorem set_if_gain_auto_agc_true_cex :
    (set_if_gain ⟨Iface.eth, true, 100, 0, false, 4, 0, 1, 2⟩ AUTO_GAIN_VALUE).1.daq_agc
      = true := by
  decide

/-- Dichotomy for `eth_connect` from a disconnected state: either some step
raised and the call took the except path - rolled-back state with freshly
re-instantiated sockets, no events, return `-1` - or every step succeeded and
the call enqueued `conn-ok`, returned `None`, and sent exactly the `INIT`
frame, the `FREQ` frame built from the cached center frequency, and the
gain/AGC frame built from the cached gain. -/
theorem eth_connect_cases (s : RxState) (o : ConnectOutcome) (chs : Nat)
    (hs : s.receiver_connection_status = false) :
    (∃ t : RxState, t.sock_ctr = s.sock_ctr ∧ ∃ fr,
        eth_connect s o chs = (rollbackSockets t, [], fr, Option.some (-1))) ∨
    (∃ freqF gainF t,
        eth_connect s o chs =
          (t, [Event.conn_ok], [initMsgBytes, freqF, gainF], Option.none) ∧
        t.receiver_connection_status = true ∧
        freqMsgBytes s.daq_center_freq = Option.some freqF ∧
        ((s.daq_rx_gain = AUTO_GAIN_VALUE ∧ gainF = agcMsgBytes) ∨
          gainMsgBytes s.daq_rx_gain t.M = Option.some gainF)) := by
  by_cases hif : s.data_interface = Iface.eth
  · by_cases hB : o.dataConnect_fails = true ∨ o.sendStreaming_fails = true ∨
        o.recvFrame_fails = true
    · rcases hB with hb | hb | hb <;>
        exact Or.inl ⟨s, rfl, [], by simp [eth_connect, hs, hif, hb]⟩
    · simp only [not_or, Bool.not_eq_true] at hB
      obtain ⟨hb1, hb2, hb3⟩ := hB
      by_cases hC : o.ctrlConnect_fails = true
      · exact Or.inl ⟨{s with M := chs}, rfl, [],
          by simp [eth_connect, hs, hif, hb1, hb2, hb3, hC]⟩
      · simp only [Bool.not_eq_true] at hC
        cases hfv : freqMsgBytes s.daq_center_freq with
        | none =>
          refine Or.inl ⟨{s with M := chs, receiver_connection_status := true}, rfl,
            [initMsgBytes], ?_⟩
          simp [eth_connect, set_center_freq, hs, hif, hb1, hb2, hb3, hC, hfv]
        | some freqF =>
          by_cases hga : s.daq_rx_gain = AUTO_GAIN_VALUE
          · refine Or.inr ⟨freqF, agcMsgBytes, {s with M := chs, receiver_connection_status := true, daq_rx_gain := AUTO_GAIN_VALUE, daq_agc := true}, ?_, rfl, rfl, Or.inl ⟨hga, rfl⟩⟩
            simp [eth_connect, set_center_freq, set_if_gain, set_if_agc,
              hs, hif, hb1, hb2, hb3, hC, hfv, hga]
          · cases hgv : gainMsgBytes s.daq_rx_gain chs with
            | none =>
              refine Or.inl ⟨{s with M := chs, receiver_connection_status := true, daq_agc := false}, rfl, [initMsgBytes, freqF], ?_⟩
              simp [eth_connect, set_center_freq, set_if_gain,
                hs, hif, hb1, hb2, hb3, hC, hfv, hga, hgv]
            | some gainF =>
              refine Or.inr ⟨freqF, gainF, {s with M := chs, receiver_connection_status := true, daq_agc := false}, ?_, rfl, rfl, Or.inr hgv⟩
              simp [eth_connect, set_center_freq, set_if_gain,
                hs, hif, hb1, hb2, hb3, hC, hfv, hga, hgv]
  · by_cases hC : o.ctrlConnect_fails = true
    · exact Or.inl ⟨s, rfl, [], by simp [eth_connect, hs, hif, hC]⟩
    · simp only [Bool.not_eq_true] at hC
      cases hfv : freqMsgBytes s.daq_center_freq with
      | none =>
        refine Or.inl ⟨{s with receiver_connection_status := true}, rfl,
          [initMsgBytes], ?_⟩
        simp [eth_connect, set_center_freq, hs, hif, hC, hfv]
      | some freqF =>
        by_cases hga : s.daq_rx_gain = AUTO_GAIN_VALUE
        · refine Or.inr ⟨freqF, agcMsgBytes, {s with receiver_connection_status := true, daq_rx_gain := AUTO_GAIN_VALUE, daq_agc := true}, ?_, rfl, rfl, Or.inl ⟨hga, rfl⟩⟩
          simp [eth_connect, set_center_freq, set_if_gain, set_if_agc,
            hs, hif, hC, hfv, hga]
        · cases hgv : gainMsgBytes s.daq_rx_gain s.M with
          | none =>
            refine Or.inl ⟨{s with receiver_connection_status := true, daq_agc := false}, rfl, [initMsgBytes, freqF], ?_⟩
            simp [eth_connect, set_center_freq, set_if_gain,
              hs, hif, hC, hfv, hga, hgv]
          | some gainF =>
            refine Or.inr ⟨freqF, gainF, {s with receiver_connection_status := true, daq_agc := false}, ?_, rfl, rfl, Or.inr hgv⟩
            simp [eth_connect, set_center_freq, set_if_gain,
              hs, hif, hC, hfv, hga, hgv]

/-- C8: For every exception raised during the connect sequence (modelled by
the call taking the except path, which is exactly the case where it returns
`-1`), `eth_connect` ends with the connection flag cleared, both the data and
control sockets replaced by freshly created socket objects, and no `conn-ok`
event enqueued.  The well-formedness hypotheses say the current socket
identities were created before the next-fresh-identity counter. -/
theorem eth_connect_exception_rolls_back (s : RxState) (o : ConnectOutcome) (chs : Nat)
    (hs : s.receiver_connection_status = false)
    (hd : s.socket_inst < s.sock_ctr) (hc : s.ctr_iface_socket < s.sock_ctr)
    (hfail : (eth_connect s o chs).2.2.2 = Option.some (-1)) :
    (eth_connect s o chs).1.receiver_connection_status = false ∧
      (eth_connect s o chs).1.socket_inst ≠ s.socket_inst ∧
      (eth_connect s o chs).1.ctr_iface_socket ≠ s.ctr_iface_socket ∧
      (eth_connect s o chs).2.1 = [] := by
  rcases eth_connect_cases s o chs hs with ⟨t, htc, fr, heq⟩ | ⟨fF, gF, t, heq, _⟩
  · rw [heq]
    refine ⟨rfl, ?_, ?_, rfl⟩
    · show t.sock_ctr ≠ s.socket_inst
      omega
    · show t.sock_ctr + 1 ≠ s.ctr_iface_socket
      omega
  · rw [heq] at hfail
    simp at hfail

theorem eth_connect_exception_rolls_back_witness :
    (eth_connect ⟨Iface.eth, false, 100, 0, false, 0, 0, 1, 2⟩
        ⟨true, false, false, false⟩ 4).1.receiver_connection_status = false ∧
      (eth_connect ⟨Iface.eth, false, 100, 0, false, 0, 0, 1, 2⟩
        ⟨true, false, false, false⟩ 4).1.socket_inst ≠ 0 ∧
      (eth_connect ⟨Iface.eth, false, 100, 0, false, 0, 0, 1, 2⟩
        ⟨true, false, false, false⟩ 4).1.ctr_iface_socket ≠ 1 ∧
      (eth_connect ⟨Iface.eth, false, 100, 0, false, 0, 0, 1, 2⟩
        ⟨true, false, false, false⟩ 4).2.1 = [] :=
  eth_connect_exception_rolls_back ⟨Iface.eth, false, 100, 0, false, 0, 0, 1, 2⟩
    ⟨true, false, false, false⟩ 4 rfl (by decide) (by decide) (by decide)

/-- C10 (amended): Every configuration call made while the connection flag is
set updates the cached configuration immediately, before any acknowledgement:
`set_center_freq` stores the frequency in `daq_center_freq`; `set_if_gain`
with a gain other than `AUTO_GAIN_VALUE` stores the gain in `daq_rx_gain` and
clears `daq_agc` (with `AUTO_GAIN_VALUE` it delegates to `set_if_agc`);
`set_if_agc` stores `AUTO_GAIN_VALUE` and sets `daq_agc`.  The
acknowledgement handler never modifies these cached values, and a successful
later `eth_connect` replays exactly them: the `FREQ` frame is built from the
cached `daq_center_freq` and the gain/AGC frame from the cached
`daq_rx_gain`. -/
theorem config_cache_immediate (s s0 : RxState) (f chs : Nat) (g : Int)
    (reply : List Nat) (o : ConnectOutcome)
    (hconn : s.receiver_connection_status = true) (hg : g ≠ AUTO_GAIN_VALUE)
    (hs0 : s0.receiver_connection_status = false)
    (hok : (eth_connect s0 o chs).2.2.2 = Option.none) :
    (set_center_freq s f).1.daq_center_freq = f ∧
      (set_if_gain s g).1.daq_rx_gain = g ∧
      (set_if_gain s g).1.daq_agc = false ∧
      (set_if_agc s).1.daq_rx_gain = AUTO_GAIN_VALUE ∧
      (set_if_agc s).1.daq_agc = true ∧
      (ctr_iface_communication s reply).1 = s ∧
      (∃ freqF gainF,
        (eth_connect s0 o chs).2.2.1 = [initMsgBytes, freqF, gainF] ∧
        freqMsgBytes s0.daq_center_freq = Option.some freqF ∧
        ((s0.daq_rx_gain = AUTO_GAIN_VALUE ∧ gainF = agcMsgBytes) ∨
          gainMsgBytes s0.daq_rx_gain (eth_connect s0 o chs).1.M = Option.some gainF)) := by
  refine ⟨?_, ?_, ?_, ?_, ?_, ?_, ?_⟩
  · rw [set_center_freq_connected s f hconn]
  · rw [set_if_gain_not_auto s g hg hconn]
  · rw [set_if_gain_not_auto s g hg hconn]
  · simp [set_if_agc, hconn]
  · simp [set_if_agc, hconn]
  · unfold ctr_iface_communication
    split <;> rfl
  · rcases eth_connect_cases s0 o chs hs0 with ⟨t, _, fr, heq⟩ |
      ⟨fF, gF, t, heq, _, hfreq, hgain⟩
    · rw [heq] at hok
      simp at hok
    · refine ⟨fF, gF, by rw [heq], hfreq, ?_⟩
      rw [heq]
      exact hgain

theorem config_cache_immediate_witness :
    (set_center_freq ⟨Iface.eth, true, 100, 0, false, 4, 0, 1, 2⟩ 433000000).1.daq_center_freq
        = 433000000 ∧
      (set_if_gain ⟨Iface.eth, true, 100, 0, false, 4, 0, 1, 2⟩ 10).1.daq_rx_gain = 10 ∧
      (set_if_gain ⟨Iface.eth, true, 100, 0, false, 4, 0, 1, 2⟩ 10).1.daq_agc = false ∧
      (set_if_agc ⟨Iface.eth, true, 100, 0, false, 4, 0, 1, 2⟩).1.daq_rx_gain
        = AUTO_GAIN_VALUE ∧
      (set_if_agc ⟨Iface.eth, true, 100, 0, false, 4, 0, 1, 2⟩).1.daq_agc = true ∧
      (ctr_iface_communication ⟨Iface.eth, true, 100, 0, false, 4, 0, 1, 2⟩
        (strBytes "FNSD")).1 = ⟨Iface.eth, true, 100, 0, false, 4, 0, 1, 2⟩ ∧
      (∃ freqF gainF,
        (eth_connect ⟨Iface.shmem, false, 100, 0, false, 0, 0, 1, 2⟩
          ⟨false, false, false, false⟩ 4).2.2.1 = [initMsgBytes, freqF, gainF] ∧
        freqMsgBytes 100 = Option.some freqF ∧
        (((0 : Int) = AUTO_GAIN_VALUE ∧ gainF = agcMsgBytes) ∨
          gainMsgBytes 0 (eth_connect ⟨Iface.shmem, false, 100, 0, false, 0, 0, 1, 2⟩
            ⟨false, false, false, false⟩ 4).1.M = Option.some gainF)) :=
  config_cache_immediate ⟨Iface.eth, true, 100, 0, false, 4, 0, 1, 2⟩
    ⟨Iface.shmem, false, 100, 0, false, 0, 0, 1, 2⟩ 433000000 4 10
    (strBytes "FNSD") ⟨false, false, false, false⟩
    rfl (by decide) rfl (by decide)

/-- `receive_iq_frame` (stream path, line 244): `incoming_payload_size =
cpi_length * active_ant_chs * 2 * int(sample_bit_depth / 8)`.  Python's
`int(x / 8)` truncates the float quotient; division by the power of two 8 is
exact for naturals below `2^53`, so the truncation equals floor division. -/
def incoming_payload_size_eth (cpi_length active_ant_chs sample_bit_depth : Nat) : Nat :=
  cpi_length * active_ant_chs * 2 * (sample_bit_depth / 8)

/-- `get_iq_online` (shared-memory path, line 206): `incoming_payload_size =
cpi_length * active_ant_chs * 2 * (sample_bit_depth // 8)` with floor
division. -/
def incoming_payload_size_shm (cpi_length active_ant_chs sample_bit_depth : Nat) : Nat :=
  cpi_length * active_ant_chs * 2 * (sample_bit_depth / 8)

/-- C5: For bit depths 8, 16 and 32, both frame paths compute the payload
byte count as `samples_per_channel * active_channel_count * 2 *
(sample_bit_depth / 8)` with the division exact (no rounding: eight times
the result is `cpi * chs * 2 * depth`), and the stream path and
shared-memory path agree; the header scenario `chs=5, cpi=128, depth=16`
yields 2560 bytes on both paths. -/
theorem payload_size_exact (cpi chs d : Nat) (hd : d = 8 ∨ d = 16 ∨ d = 32) :
    incoming_payload_size_eth cpi chs d = incoming_payload_size_shm cpi chs d ∧
      8 * incoming_payload_size_eth cpi chs d = cpi * chs * 2 * d ∧
      incoming_payload_size_eth 128 5 16 = 2560 ∧
      incoming_payload_size_shm 128 5 16 = 2560 := by
  refine ⟨rfl, ?_, by decide, by decide⟩
  rcases hd with rfl | rfl | rfl <;> simp [incoming_payload_size_eth] <;> ring

theorem payload_size_exact_witness :
    incoming_payload_size_eth 128 5 16 = incoming_payload_size_shm 128 5 16 ∧
      8 * incoming_payload_size_eth 128 5 16 = 128 * 5 * 2 * 16 ∧
      incoming_payload_size_eth 128 5 16 = 2560 ∧
      incoming_payload_size_shm 128 5 16 = 2560 :=
  payload_size_exact 128 5 16 (Or.inr (Or.inl rfl))

/-- The exact-receive loop of `receive_iq_frame` (header reception, lines
234-238): `while total_received_bytes < n: recv_bytes_count =
recv_into(view, n - total_received_bytes); total_received_bytes += ...`.
`reads i` is the byte count the socket would deliver on the `i`-th
`recv_into` call; the count actually received is capped by the requested
remainder.  `fuel` bounds how many iterations we observe: the Python loop
has no bound, so a result of `Option.none` at every `fuel` means the loop
never terminates. -/
def recv_exact_loop (reads : Nat → Nat) (n : Nat) : Nat → Nat → Nat → Option Nat
  | 0, _, total => if n ≤ total then Option.some total else Option.none
  | Nat.succ f, i, total =>
    if n ≤ total then Option.some total
    else recv_exact_loop reads n f (i + 1) (total + min (reads i) (n - total))

/-- The reception loop never terminates, whatever iteration bound is
observed. -/
def recv_loop_diverges (reads : Nat → Nat) (n : Nat) : Prop :=
  ∀ fuel, recv_exact_loop reads n fuel 0 0 = Option.none

theorem recv_exact_loop_zero_reads (n : Nat) (hn : 0 < n) :
    ∀ fuel i, recv_exact_loop (fun _ => 0) n fuel i 0 = Option.none := by
  intro fuel
  induction fuel with
  | zero =>
    intro i
    simp [recv_exact_loop]
    omega
  | succ f ih =>
    intro i
    have hlt : ¬ n ≤ 0 := by omega
    simp only [recv_exact_loop, if_neg hlt, Nat.zero_min, Nat.add_zero]
    exact ih (i + 1)

theorem recv_exact_loop_pos_reads (reads : Nat → Nat) (n : Nat)
    (hpos : ∀ i, 0 < reads i) :
    ∀ fuel i total, total ≤ n → n - total ≤ fuel →
      recv_exact_loop reads n fuel i total = Option.some n := by
  intro fuel
  induction fuel with
  | zero =>
    intro i total h1 h2
    have : total = n := by omega
    simp [recv_exact_loop, this]
  | succ f ih =>
    intro i total h1 h2
    by_cases hle : n ≤ total
    · have : total = n := by omega
      simp [recv_exact_loop, hle, this]
    · have hr := hpos i
      simp only [recv_exact_loop, if_neg hle]
      exact ih (i + 1) (total + min (reads i) (n - total)) (by omega) (by omega)

/-- C4 counterexample: when the peer closes the connection, every
`recv_into` returns 0 bytes; with the 1024-byte header still outstanding,
the reception loop of `receive_iq_frame` never terminates - no
`ConnectionLost` failure is raised and no result is produced at any
iteration count. -/
theorem recv_loop_peer_close_diverges : recv_loop_diverges (fun _ => 0) 1024 :=
  fun fuel => recv_exact_loop_zero_reads 1024 (by omega) fuel 0

/-- C4 (amended): the exact-receive loop returns exactly `n` bytes whenever
every read delivers at least one byte (within `n` iterations), but when the
peer closes and every read returns zero bytes it loops forever: it neither
fails with a `ConnectionLost`-style error nor returns a short result. -/
theorem recv_exact_loop_amended (n : Nat) (reads : Nat → Nat)
    (hpos : ∀ i, 0 < reads i) (hn : 0 < n) :
    recv_exact_loop reads n n 0 0 = Option.some n ∧
      recv_loop_diverges (fun _ => 0) n := by
  refine ⟨?_, fun fuel => recv_exact_loop_zero_reads n hn fuel 0⟩
  exact recv_exact_loop_pos_reads reads n hpos n 0 0 (by omega) (by omega)

theorem recv_exact_loop_amended_witness :
    recv_exact_loop (fun _ => 1) 3 3 0 0 = Option.some 3 :=
  (recv_exact_loop_amended 3 (fun _ => 1) (fun _ => Nat.one_pos) (by omega)).1

/-- The header fields of `IQHeader` that the two frame paths read.  The
`iq_header` module is not under `src/`; frames carry the decoded record and
the decode function is a parameter where needed. -/
structure IQHeaderModel where
  active_ant_chs : Nat
  cpi_length : Nat
  sample_bit_depth : Nat
deriving DecidableEq

/-- `self.receiverBufferSize = 2**18`, the request size of each payload
`recv_into`. -/
def receiverBufferSize : Nat := 2 ^ 18

/-- Byte-level model of the header reception loop: the `i`-th `recv_into`
requests the outstanding remainder `hsize - acc.length`; `sched i` is the
chunk size the network delivers; the bytes received are the first
`min (sched i) (min request rest.length)` bytes of the undelivered stream
`rest`. -/
def recv_header_stream (sched : Nat → Nat) (hsize : Nat) :
    Nat → Nat → List Nat → List Nat → Option (List Nat × List Nat)
  | 0, _, acc, rest =>
    if hsize ≤ acc.length then Option.some (acc, rest) else Option.none
  | Nat.succ f, i, acc, rest =>
    if hsize ≤ acc.length then Option.some (acc, rest)
    else
      recv_header_stream sched hsize f (i + 1)
        (acc ++ rest.take (min (sched i) (min (hsize - acc.length) rest.length)))
        (rest.drop (min (sched i) (min (hsize - acc.length) rest.length)))

/-- Byte-level model of the payload reception loop (lines 259-263): each
`recv_into` requests `receiverBufferSize` bytes regardless of the remainder;
otherwise as `recv_header_stream`. -/
def recv_payload_stream (sched : Nat → Nat) (psize : Nat) :
    Nat → Nat → List Nat → List Nat → Option (List Nat × List Nat)
  | 0, _, acc, rest =>
    if psize ≤ acc.length then Option.some (acc, rest) else Option.none
  | Nat.succ f, i, acc, rest =>
    if psize ≤ acc.length then Option.some (acc, rest)
    else
      recv_payload_stream sched psize f (i + 1)
        (acc ++ rest.take (min (sched i) (min receiverBufferSize rest.length)))
        (rest.drop (min (sched i) (min receiverBufferSize rest.length)))

/-- `receive_iq_frame`, stream mode: receive `hsize` header bytes exactly,
decode them (`decodeH` stands for `IQHeader.decode_header`, whose module is
not under `src/`; the result holds for every decode function), compute the
payload size from the decoded fields, and when it is positive receive the
payload and keep its first `payload_size` bytes
(`iq_data_bytes[0:total_bytes_to_receive]`); a zero payload size yields an
empty frame. -/
def receive_iq_frame (decodeH : List Nat → IQHeaderModel) (hsize : Nat)
    (sched : Nat → Nat) (stream : List Nat) (fuel : Nat) :
    Option (IQHeaderModel × List Nat) :=
  match recv_header_stream sched hsize fuel 0 [] stream with
  | Option.none => Option.none
  | Option.some (hb, rest) =>
    let h := decodeH hb
    let p := incoming_payload_size_eth h.cpi_length h.active_ant_chs h.sample_bit_depth
    if 0 < p then
      match recv_payload_stream sched p fuel 0 [] rest with
      | Option.none => Option.none
      | Option.some (pb, _) => Option.some (h, pb.take p)
    else
      Option.some (h, [])

theorem recv_header_stream_drains (sched : Nat → Nat) (hsize : Nat)
    (hpos : ∀ i, 0 < sched i) :
    ∀ fuel i acc rest, acc.length ≤ hsize → hsize - acc.length ≤ rest.length →
      hsize - acc.length ≤ fuel →
      recv_header_stream sched hsize fuel i acc rest =
        Option.some (acc ++ rest.take (hsize - acc.length),
          rest.drop (hsize - acc.length)) := by
  intro fuel
  induction fuel with
  | zero =>
    intro i acc rest h1 h2 h3
    have hle : hsize ≤ acc.length := by omega
    have h0 : hsize - acc.length = 0 := by omega
    simp [recv_header_stream, hle, h0]
  | succ f ih =>
    intro i acc rest h1 h2 h3
    by_cases hle : hsize ≤ acc.length
    · have h0 : hsize - acc.length = 0 := by omega
      simp [recv_header_stream, hle, h0]
    · have hsch := hpos i
      have hrem : 1 ≤ hsize - acc.length := by omega
      simp only [recv_header_stream, if_neg hle]
      have hkr : min (sched i) (min (hsize - acc.length) rest.length) ≤ rest.length := by
        omega
      have hkh : min (sched i) (min (hsize - acc.length) rest.length)
          ≤ hsize - acc.length := by omega
      have hk1 : 1 ≤ min (sched i) (min (hsize - acc.length) rest.length) := by omega
      rw [ih (i + 1) _ _ (by simp [List.length_take]; omega)
        (by simp [List.length_take, List.length_drop]; omega)
        (by simp [List.length_take]; omega)]
      congr 2
      · rw [List.append_assoc]
        congr 1
        rw [List.length_append, List.length_take]
        rw [← List.take_add]
        congr 1
        omega
      · rw [List.drop_drop, List.length_append, List.length_take]
        congr 1
        omega

theorem recv_payload_stream_drains (sched : Nat → Nat) (psize : Nat)
    (hpos : ∀ i, 0 < sched i) :
    ∀ fuel i acc rest, acc.length ≤ psize → rest.length = psize - acc.length →
      rest.length ≤ fuel →
      recv_payload_stream sched psize fuel i acc rest =
        Option.some (acc ++ rest, []) := by
  intro fuel
  induction fuel with
  | zero =>
    intro i acc rest h1 h2 h3
    have hnil : rest = [] := List.length_eq_zero.mp (by omega)
    have hle : psize ≤ acc.length := by omega
    simp [recv_payload_stream, hle, hnil]
  | succ f ih =>
    intro i acc rest h1 h2 h3
    by_cases hle : psize ≤ acc.length
    · have hnil : rest = [] := List.length_eq_zero.mp (by omega)
      simp [recv_payload_stream, hle, hnil]
    · have hsch := hpos i
      have hbuf : 1 ≤ receiverBufferSize := by decide
      have hrest : 1 ≤ rest.length := by omega
      simp only [recv_payload_stream, if_neg hle]
      have hkr : min (sched i) (min receiverBufferSize rest.length) ≤ rest.length := by
        omega
      have hk1 : 1 ≤ min (sched i) (min receiverBufferSize rest.length) := by omega
      rw [ih (i + 1) _ _ (by simp [List.length_take]; omega)
        (by simp [List.length_take, List.length_drop]; omega)
        (by simp [List.length_drop]; omega)]
      rw [List.append_assoc, List.take_append_drop]

/-- C6: feeding one complete frame (header plus exactly the payload its
decoded header declares) through the stream receiver produces the same
decoded frame for every positive chunk schedule - in particular for a
transport delivering one byte per read and for one delivering everything in
a single read - namely the decoded header together with the payload bytes
that follow it. -/
theorem receive_iq_frame_chunk_independent (decodeH : List Nat → IQHeaderModel)
    (hsize : Nat) (stream : List Nat) (s1 s2 : Nat → Nat)
    (h1 : ∀ i, 0 < s1 i) (h2 : ∀ i, 0 < s2 i)
    (hlen : stream.length = hsize +
      incoming_payload_size_eth (decodeH (stream.take hsize)).cpi_length
        (decodeH (stream.take hsize)).active_ant_chs
        (decodeH (stream.take hsize)).sample_bit_depth) :
    receive_iq_frame decodeH hsize s1 stream (stream.length + 1) =
        receive_iq_frame decodeH hsize s2 stream (stream.length + 1) ∧
      receive_iq_frame decodeH hsize s1 stream (stream.length + 1) =
        Option.some (decodeH (stream.take hsize), stream.drop hsize) := by
  have key : ∀ sched : Nat → Nat, (∀ i, 0 < sched i) →
      receive_iq_frame decodeH hsize sched stream (stream.length + 1) =
        Option.some (decodeH (stream.take hsize), stream.drop hsize) := by
    intro sched hpos
    unfold receive_iq_frame
    rw [recv_header_stream_drains sched hsize hpos (stream.length + 1) 0 [] stream
      (by simp) (by simp; omega) (by simp; omega)]
    simp only [List.nil_append, Nat.sub_zero, List.length_nil]
    have hdlen : (stream.drop hsize).length =
        incoming_payload_size_eth (decodeH (stream.take hsize)).cpi_length
          (decodeH (stream.take hsize)).active_ant_chs
          (decodeH (stream.take hsize)).sample_bit_depth := by
      simp [List.length_drop]
      omega
    by_cases hp : 0 < incoming_payload_size_eth (decodeH (stream.take hsize)).cpi_length
        (decodeH (stream.take hsize)).active_ant_chs
        (decodeH (stream.take hsize)).sample_bit_depth
    · rw [if_pos hp]
      rw [recv_payload_stream_drains sched _ hpos (stream.length + 1) 0 []
        (stream.drop hsize) (by simp) (by simp [hdlen]) (by simp [List.length_drop]; omega)]
      simp only [List.nil_append]
      rw [← hdlen, List.take_length]
    · rw [if_neg hp]
      have : (stream.drop hsize).length = 0 := by omega
      rw [List.length_eq_zero.mp this]
  exact ⟨(key s1 h1).trans (key s2 h2).symm, key s1 h1⟩

theorem receive_iq_frame_chunk_independent_witness :
    receive_iq_frame (fun _ => ⟨1, 1, 8⟩) 2 (fun _ => 1) [5, 6, 7, 8] 5 =
        receive_iq_frame (fun _ => ⟨1, 1, 8⟩) 2 (fun _ => 4) [5, 6, 7, 8] 5 ∧
      receive_iq_frame (fun _ => ⟨1, 1, 8⟩) 2 (fun _ => 1) [5, 6, 7, 8] 5 =
        Option.some (⟨1, 1, 8⟩, [7, 8]) :=
  receive_iq_frame_chunk_independent (fun _ => ⟨1, 1, 8⟩) 2 [5, 6, 7, 8]
    (fun _ => 1) (fun _ => 4) (fun _ => Nat.one_pos) (fun _ => Nat.succ_pos 3) (by decide)

/-- One acquisition through the shared-memory interface, as observed by
`get_iq_online`: the index `wait_buff_free()` returned and the header that
`decode_header` yields from the first 1024 bytes of the granted buffer. -/
structure ShmAcquire where
  wait_result : Int
  hdr : IQHeaderModel
deriving DecidableEq

/-- Operations `get_iq_online` performs on the shared-memory interface. -/
inductive ShmAction
  | buff_access (idx : Int)
  | send_ctr_buff_ready (idx : Int)
deriving DecidableEq

/-- The sample-buffer state of the receiver: `iq_samples_shape` is the numpy
array's `(active_ant_chs, cpi_length)` shape and `iq_samples_alloc` the
identity of its backing allocation; `alloc_ctr` is the next fresh allocation
identity (`np.empty` and `np.frombuffer` over a new `bytearray` both produce
fresh allocations). -/
structure BufState where
  M : Nat
  iq_samples_shape : Nat × Nat
  iq_samples_alloc : Nat
  alloc_ctr : Nat
deriving DecidableEq

/-- The shared-memory branch of `get_iq_online` under an established
connection: indices outside {0, 1} terminate the call with `return -1`
before any buffer slot is read and before `send_ctr_buff_ready`; otherwise
the buffer is read, the header decoded, `M` latched if still zero, the
sample buffer reused when the shape is unchanged and reallocated otherwise,
and the slot released.  Result: new buffer state, Python return value
(`Option.some (-1)` for `return -1`, `Option.none` for falling through), and
the operations performed on the shared-memory interface. -/
def get_iq_online_shmem (s : BufState) (a : ShmAcquire) :
    BufState × Option Int × List ShmAction :=
  if a.wait_result < 0 ∨ 1 < a.wait_result then
    (s, Option.some (-1), [])
  else
    let M' := if s.M = 0 then a.hdr.active_ant_chs else s.M
    let shape := (a.hdr.active_ant_chs, a.hdr.cpi_length)
    let s1 : BufState :=
      if s.iq_samples_shape ≠ shape then
        {s with M := M', iq_samples_shape := shape,
                iq_samples_alloc := s.alloc_ctr, alloc_ctr := s.alloc_ctr + 1}
      else
        {s with M := M'}
    (s1, Option.none,
      [ShmAction.buff_access a.wait_result, ShmAction.send_ctr_buff_ready a.wait_result])

/-- `get_iq_online` in shared-memory mode including the connection check:
when not connected it first attempts `eth_connect` and propagates `return
-1` on failure; `connect_fails` abstracts that attempt's outcome. -/
def get_iq_online_shm (connected connect_fails : Bool) (s : BufState) (a : ShmAcquire) :
    BufState × Option Int × List ShmAction :=
  if connected = false ∧ connect_fails = true then
    (s, Option.some (-1), [])
  else
    get_iq_online_shmem s a

/-- The allocation effect of `receive_iq_frame` (stream path) on
`iq_samples`: a fresh `bytearray` is allocated on every call with a
non-empty payload and `np.frombuffer(...).reshape(...)` rebinds
`iq_samples` to a new array over it - the previous buffer is never
reused. -/
def receive_iq_frame_alloc (s : BufState) (hdr : IQHeaderModel) : BufState :=
  if 0 < incoming_payload_size_eth hdr.cpi_length hdr.active_ant_chs hdr.sample_bit_depth then
    {s with iq_samples_shape := (hdr.active_ant_chs, hdr.cpi_length),
            iq_samples_alloc := s.alloc_ctr, alloc_ctr := s.alloc_ctr + 1}
  else
    s

/-- C7 counterexample: the value `get_iq_online` returns when
`wait_buff_free` yields the termination sentinel is `-1` - exactly the same
value it returns when the embedded connect attempt fails - so the
termination outcome is not distinct from the connection-failure outcome. -/
theorem terminated_result_equals_connect_failure :
    (get_iq_online_shm true false ⟨0, (0, 0), 0, 1⟩ ⟨-1, ⟨5, 128, 16⟩⟩).2.1 =
        (get_iq_online_shm false true ⟨0, (0, 0), 0, 1⟩ ⟨0, ⟨5, 128, 16⟩⟩).2.1 ∧
      (get_iq_online_shm true false ⟨0, (0, 0), 0, 1⟩ ⟨-1, ⟨5, 128, 16⟩⟩).2.1 =
        Option.some (-1) := by
  decide

/-- C7 (amended): when `wait_buff_free` returns an index outside {0, 1} (the
termination sentinel), `get_iq_online` returns `-1` - the same value as a
connect failure, not a distinct Terminated code - without touching any
buffer slot, without calling `send_ctr_buff_ready`, and without modifying
the sample-buffer state. -/
theorem terminate_sentinel_amended (s : BufState) (a : ShmAcquire)
    (hterm : a.wait_result < 0 ∨ 1 < a.wait_result) :
    (get_iq_online_shm true false s a).2.1 = Option.some (-1) ∧
      (get_iq_online_shm true false s a).2.2 = [] ∧
      (get_iq_online_shm true false s a).1 = s ∧
      (get_iq_online_shm false true s a).2.1 = Option.some (-1) := by
  have h : get_iq_online_shmem s a = (s, Option.some (-1), []) := by
    unfold get_iq_online_shmem
    rw [if_pos hterm]
  refine ⟨?_, ?_, ?_, ?_⟩ <;> simp [get_iq_online_shm, h]

theorem terminate_sentinel_amended_witness :
    (get_iq_online_shm true false ⟨0, (0, 0), 0, 1⟩ ⟨-1, ⟨5, 128, 16⟩⟩).2.1
        = Option.some (-1) ∧
      (get_iq_online_shm true false ⟨0, (0, 0), 0, 1⟩ ⟨-1, ⟨5, 128, 16⟩⟩).2.2 = [] ∧
      (get_iq_online_shm true false ⟨0, (0, 0), 0, 1⟩ ⟨-1, ⟨5, 128, 16⟩⟩).1
        = ⟨0, (0, 0), 0, 1⟩ ∧
      (get_iq_online_shm false true ⟨0, (0, 0), 0, 1⟩ ⟨-1, ⟨5, 128, 16⟩⟩).2.1
        = Option.some (-1) :=
  terminate_sentinel_amended ⟨0, (0, 0), 0, 1⟩ ⟨-1, ⟨5, 128, 16⟩⟩ (by decide)

/-- C9 counterexample: on the stream path, two consecutive frames of
identical shape still reallocate the sample buffer: after the second
`receive_iq_frame` the shape is unchanged but `iq_samples` is backed by a
different allocation than after the first. -/
theorem stream_path_reallocates_same_shape :
    (receive_iq_frame_alloc (receive_iq_frame_alloc ⟨5, (5, 128), 0, 1⟩ ⟨5, 128, 16⟩)
          ⟨5, 128, 16⟩).iq_samples_shape =
        (receive_iq_frame_alloc ⟨5, (5, 128), 0, 1⟩ ⟨5, 128, 16⟩).iq_samples_shape ∧
      (receive_iq_frame_alloc (receive_iq_frame_alloc ⟨5, (5, 128), 0, 1⟩ ⟨5, 128, 16⟩)
          ⟨5, 128, 16⟩).iq_samples_alloc ≠
        (receive_iq_frame_alloc ⟨5, (5, 128), 0, 1⟩ ⟨5, 128, 16⟩).iq_samples_alloc := by
  decide

/-- C9 (amended): only the shared-memory path reuses the sample buffer: for
a frame of unchanged shape it keeps the same allocation, and for a changed
shape it reallocates to the new shape; the stream path rebinds `iq_samples`
to a fresh allocation on every frame with a non-empty payload, regardless of
shape. -/
theorem buffer_reuse_amended (s : BufState) (a : ShmAcquire) (hdr : IQHeaderModel)
    (hidx : ¬(a.wait_result < 0 ∨ 1 < a.wait_result))
    (hfresh : s.iq_samples_alloc < s.alloc_ctr)
    (hp : 0 < incoming_payload_size_eth hdr.cpi_length hdr.active_ant_chs
      hdr.sample_bit_depth) :
    (s.iq_samples_shape = (a.hdr.active_ant_chs, a.hdr.cpi_length) →
        (get_iq_online_shmem s a).1.iq_samples_alloc = s.iq_samples_alloc ∧
          (get_iq_online_shmem s a).1.iq_samples_shape = s.iq_samples_shape) ∧
      (s.iq_samples_shape ≠ (a.hdr.active_ant_chs, a.hdr.cpi_length) →
        (get_iq_online_shmem s a).1.iq_samples_shape
            = (a.hdr.active_ant_chs, a.hdr.cpi_length) ∧
          (get_iq_online_shmem s a).1.iq_samples_alloc ≠ s.iq_samples_alloc) ∧
      (receive_iq_frame_alloc s hdr).iq_samples_alloc ≠ s.iq_samples_alloc ∧
      (receive_iq_frame_alloc s hdr).iq_samples_shape
        = (hdr.active_ant_chs, hdr.cpi_length) := by
  refine ⟨?_, ?_, ?_, ?_⟩
  · intro hsame
    simp [get_iq_online_shmem, hidx, hsame]
  · intro hdiff
    simp only [get_iq_online_shmem, if_neg hidx, ne_eq, hdiff, not_false_eq_true,
      if_true, ite_true]
    exact ⟨trivial, by omega⟩
  · simp only [receive_iq_frame_alloc, if_pos hp]
    show s.alloc_ctr ≠ s.iq_samples_alloc
    omega
  · simp [receive_iq_frame_alloc, hp]

theorem buffer_reuse_amended_witness :
    ((⟨5, (5, 128), 0, 1⟩ : BufState).iq_samples_shape = (5, 128) →
        (get_iq_online_shmem ⟨5, (5, 128), 0, 1⟩ ⟨0, ⟨5, 128, 16⟩⟩).1.iq_samples_alloc = 0 ∧
          (get_iq_online_shmem ⟨5, (5, 128), 0, 1⟩
            ⟨0, ⟨5, 128, 16⟩⟩).1.iq_samples_shape = (5, 128)) ∧
      ((⟨5, (5, 128), 0, 1⟩ : BufState).iq_samples_shape ≠ (5, 128) →
        (get_iq_online_shmem ⟨5, (5, 128), 0, 1⟩
            ⟨0, ⟨5, 128, 16⟩⟩).1.iq_samples_shape = (5, 128) ∧
          (get_iq_online_shmem ⟨5, (5, 128), 0, 1⟩
            ⟨0, ⟨5, 128, 16⟩⟩).1.iq_samples_alloc ≠ 0) ∧
      (receive_iq_frame_alloc ⟨5, (5, 128), 0, 1⟩ ⟨5, 128, 16⟩).iq_samples_alloc ≠ 0 ∧
      (receive_iq_frame_alloc ⟨5, (5, 128), 0, 1⟩ ⟨5, 128, 16⟩).iq_samples_shape
        = (5, 128) :=
  buffer_reuse_amended ⟨5, (5, 128), 0, 1⟩ ⟨0, ⟨5, 128, 16⟩⟩ ⟨5, 128, 16⟩
    (by decide) (by decide) (by decide)

end Kraken
